import Mathlib

/-!
Verification of the tool-calling orchestration core of the JARZ-AI backend
(`backend/app`): the TTL result cache (`cache.py`), the tool dispatcher
(`agent/tools.py`), the streaming completion parser (`llm_client.py`),
the chat orchestration nodes and graph (`agent/nodes.py`, `agent/graph.py`)
and the conversation store (`db.py`, `main.py`).

Python dictionaries and JSON-serializable values are embedded as a `Json`
value type; `json.dumps`/`json.loads` round-trips are the identity on this
domain, so the cache stores parsed values directly.  Wall-clock time
(`time.time()`) is modelled as a rational number.  Python exceptions are
modelled with `Except String`.
-/

namespace Jarz

/-- JSON-serializable values: the domain of tool arguments, tool results and
cache values (Python dicts/lists/strings/numbers/bools/None). -/
inductive Json where
  | null
  | bool (b : Bool)
  | num (q : ℚ)
  | str (s : String)
  | arr (elems : List Json)
  | obj (fields : List (String × Json))

/-- `d.get(k)` on a JSON object: first binding of the key, `none` otherwise. -/
def Json.getField : Json → String → Option Json
  | .obj fs, k => fs.lookup k
  | _, _ => none

/-- Python truthiness of a JSON value (`if value:`). -/
def Json.truthy : Json → Bool
  | .null => false
  | .bool b => b
  | .num q => decide (q ≠ 0)
  | .str s => decide (s ≠ "")
  | .arr xs => !xs.isEmpty
  | .obj fs => !fs.isEmpty

/-- `d.get(k)` followed by a Python truthiness test (`if d.get(k):`). -/
def Json.getTruthy (j : Json) (k : String) : Option Json :=
  match j.getField k with
  | some v => if v.truthy then some v else none
  | none => none

/-- Minimal string escaping used by `json.dumps` for the characters that
matter to the embedding (backslash and double quote). -/
def escapeString (s : String) : String :=
  (s.replace "\\" "\\\\").replace "\"" "\\\""

mutual
/-- `json.dumps` on the embedded JSON domain. -/
def Json.dump : Json → String
  | .null => "null"
  | .bool true => "true"
  | .bool false => "false"
  | .num q => toString q
  | .str s => "\"" ++ escapeString s ++ "\""
  | .arr xs => "[" ++ Json.dumpList xs ++ "]"
  | .obj fs => "\x7b" ++ Json.dumpFields fs ++ "\x7d"

/-- Comma-separated rendering of a JSON array body. -/
def Json.dumpList : List Json → String
  | [] => ""
  | [x] => Json.dump x
  | x :: xs => Json.dump x ++ ", " ++ Json.dumpList xs

/-- Comma-separated rendering of a JSON object body. -/
def Json.dumpFields : List (String × Json) → String
  | [] => ""
  | [(k, v)] => "\"" ++ escapeString k ++ "\": " ++ Json.dump v
  | (k, v) :: fs => "\"" ++ escapeString k ++ "\": " ++ Json.dump v ++ ", " ++ Json.dumpFields fs
end

/-- Insertion of a field list in ascending key order (`sort_keys=True`);
the keys are already-recursed fields, so this is plain insertion sort. -/
def insertField (p : String × Json) : List (String × Json) → List (String × Json)
  | [] => [p]
  | q :: qs => if q.1 ≤ p.1 then q :: insertField p qs else p :: q :: qs

/-- Sort a JSON object's field list by key (`json.dumps(..., sort_keys=True)`). -/
def sortFields : List (String × Json) → List (String × Json)
  | [] => []
  | p :: ps => insertField p (sortFields ps)

mutual
/-- Recursively sort all object keys, modelling `json.dumps(..., sort_keys=True)`. -/
def Json.sortKeys : Json → Json
  | .null => .null
  | .bool b => .bool b
  | .num q => .num q
  | .str s => .str s
  | .arr xs => .arr (Json.sortKeysList xs)
  | .obj fs => .obj (sortFields (Json.sortKeysFields fs))

/-- `sortKeys` mapped over an array body. -/
def Json.sortKeysList : List Json → List Json
  | [] => []
  | x :: xs => Json.sortKeys x :: Json.sortKeysList xs

/-- `sortKeys` mapped over object field values. -/
def Json.sortKeysFields : List (String × Json) → List (String × Json)
  | [] => []
  | (k, v) :: fs => (k, Json.sortKeys v) :: Json.sortKeysFields fs
end

/-! ## Result cache (`backend/app/cache.py`)

The store `_store : dict[str, tuple[str, float]]` maps a key to the
serialized value and its absolute expiry timestamp.  The model keeps the
parsed `Json` value in place of the serialized string (dumps/loads is the
identity on this domain).  Dict update/delete are modelled on an
association list with unique keys. -/

/-- In-memory cache store: key, value, absolute expiry timestamp. -/
abbrev CacheStore := List (String × Json × ℚ)

/-- Dict lookup `_store.get(key)`. -/
def lookupEntry (st : CacheStore) (key : String) : Option (Json × ℚ) :=
  (st.find? (fun e => e.1 = key)).map (fun e => e.2)

/-- Dict deletion `del _store[key]`. -/
def eraseEntry (st : CacheStore) (key : String) : CacheStore :=
  st.filter (fun e => e.1 ≠ key)

/-- `DEFAULT_TTL_SECONDS = 3600` (`cache.py`). -/
def DEFAULT_TTL_SECONDS : ℚ := 3600

/-- `cache.get(key)`: return the cached value if present and not expired;
an expired entry is deleted (lazy purge) and the read is a miss.  Returns
the value (if any) together with the possibly-purged store.  The Python
guard is `if time.time() > expiry`, i.e. expired iff `expiry < now`. -/
def Cache.get (now : ℚ) (st : CacheStore) (key : String) : Option Json × CacheStore :=
  match lookupEntry st key with
  | none => (none, st)
  | some (v, e) => if e < now then (none, eraseEntry st key) else (some v, st)

/-- `cache.set_(key, value, ttl_seconds)`: store the value with absolute
expiry `now + ttl`.  Dict assignment replaces any entry under the key. -/
def Cache.set (now ttl : ℚ) (key : String) (value : Json) (st : CacheStore) : CacheStore :=
  (key, value, now + ttl) :: eraseEntry st key

/-- `cache._save_to_disk()`: every entry is written as `{"v": ..., "e": ...}`.
The file serialization round-trips each entry, so the on-disk image is the
entry list itself. -/
def saveToDisk (st : CacheStore) : CacheStore :=
  st

/-- `cache._load_from_disk()` at time `now`: keep only unexpired entries
(the code skips an item when `e <= now`). -/
def loadFromDisk (data : CacheStore) (now : ℚ) : CacheStore :=
  data.filter (fun e => now < e.2.2)

/-- `cache._make_key(prefix, *parts)`: `prefix + ":" + json.dumps(parts, sort_keys=True)`. -/
def makeKey (pre : String) (parts : List Json) : String :=
  pre ++ ":" ++ Json.dump (Json.sortKeys (Json.arr parts))

/-! ## Tool dispatcher (`backend/app/agent/tools.py`, `execute_tool`)

`execute_tool` checks the cache, then dispatches over the seven known tool
names via an `if/elif` chain.  Each branch extracts arguments from the
payload (a required key is read with `arguments[key]`, which raises
`KeyError` when absent), awaits the tool executor and assembles the result
dict.  The executor bodies perform HTTP and model calls, so they are
abstracted as an injected function `run : name → arguments → Except String Json`
covering the executor together with its result-dict assembly; the argument
subscript that precedes the executor call is modelled explicitly.  The
third component of the result counts executor invocations. -/

/-- The tool names of the `if/elif` chain in `execute_tool`. -/
def knownTools : List String :=
  ["get_rent_forecast", "search_location", "compare_areas", "get_embodied_carbon",
   "get_property_listings", "get_investment_analysis", "get_market_data"]

/-- Whether a name hits one of the `elif` branches of `execute_tool`. -/
def isKnownTool (toolName : String) : Bool :=
  knownTools.contains toolName

/-- The required-argument subscript each branch performs before calling its
executor (`arguments["location"]` resp. `arguments["query"]`);
`compare_areas` reads all of its arguments with `.get` and has none. -/
def requiredArgKey : String → Option String
  | "get_rent_forecast" => some "location"
  | "search_location" => some "query"
  | "compare_areas" => none
  | "get_embodied_carbon" => some "location"
  | "get_property_listings" => some "location"
  | "get_investment_analysis" => some "location"
  | "get_market_data" => some "location"
  | _ => none

/-- `_cache_key(tool_name, arguments) = _make_key("tool", tool_name, arguments)`. -/
def cacheKey (toolName : String) (arguments : Json) : String :=
  makeKey "tool" [.str toolName, arguments]

/-- The dict returned by the final `else` branch of `execute_tool`. -/
def unknownToolResult (toolName : String) : Json :=
  .obj [("success", .bool false), ("error", .str ("Unknown tool: " ++ toolName))]

/-- `execute_tool(tool_name, arguments)`: cache lookup, then dispatch.
On a hit the cached result is returned without invoking any executor.  On a
miss over a known name, the required argument is subscripted (raising
`KeyError` — whose `str()` is the quoted key — when absent), the executor
runs, and a normal result is cached under the default TTL before being
returned.  An unknown name returns a `success=False` dict and writes
nothing.  Exceptions propagate out of `execute_tool` as `Except.error`. -/
def executeTool (run : String → Json → Except String Json) (now : ℚ) (st : CacheStore)
    (toolName : String) (arguments : Json) : Except String Json × CacheStore × Nat :=
  let key := cacheKey toolName arguments
  match Cache.get now st key with
  | (some cached, st') => (.ok cached, st', 0)
  | (none, st') =>
    if isKnownTool toolName then
      let proceed : Except String Json × CacheStore × Nat :=
        match run toolName arguments with
        | .ok out => (.ok out, Cache.set now DEFAULT_TTL_SECONDS key out st', 1)
        | .error msg => (.error msg, st', 1)
      match requiredArgKey toolName with
      | some k =>
        match arguments.getField k with
        | none => (.error ("'" ++ k ++ "'"), st', 0)
        | some _ => proceed
      | none => proceed
    else
      (.ok (unknownToolResult toolName), st', 0)

/-- Whether the required-argument subscripts of `execute_tool`'s branch for
this tool succeed on the given payload. -/
def argOk (toolName : String) (arguments : Json) : Bool :=
  match requiredArgKey toolName with
  | some k => (arguments.getField k).isSome
  | none => true

/-- A pending tool call (`agent/state.py`, `PendingToolCall`). -/
structure PendingToolCall where
  id : String
  name : String
  arguments : Json

/-- The per-call `try/except` around `execute_tool` in `tool_executor_node`
(`agent/nodes.py` lines 474–481): an exception becomes
`{"success": False, "summary": f"{tool_name} failed: {str(e)}"}`. -/
def resolveToolCall (run : String → Json → Except String Json) (now : ℚ) (st : CacheStore)
    (c : PendingToolCall) : Json × CacheStore × Nat :=
  match executeTool run now st c.name c.arguments with
  | (.ok r, st', n) => (r, st', n)
  | (.error msg, st', n) =>
    (.obj [("success", .bool false), ("summary", .str (c.name ++ " failed: " ++ msg))], st', n)

/-! ## Streaming completion parser (`backend/app/llm_client.py`,
`LLMClient.stream_chat_completion`)

The response arrives as SSE lines; each parsed line carries a delta with
optional text content, tool-call fragments keyed by an integer index, and
an optional finish reason.  Tool-call fragments are accumulated in
`tool_call_accumulator : dict[int, dict]`; on `finish_reason == "tool_calls"`
the accumulated calls are emitted for `idx in sorted(...keys())`, parsing
the concatenated argument text with `json.loads` (parse failure or empty
text yields `{}`).  `json.loads` is abstracted as an injected
`parseJson : String → Option Json`. -/

/-- One tool-call fragment of a delta (`delta["tool_calls"][j]`): the slot
index, and optional id / function name / argument-text fragment. -/
structure ToolCallDelta where
  index : Nat
  id : Option String
  fname : Option String
  argsFrag : Option String

/-- One parsed stream delta (`choices[0].delta` plus `finish_reason`). -/
structure StreamDelta where
  content : Option String
  tool_calls : List ToolCallDelta
  finishReason : Option String

/-- One SSE data line: the `[DONE]` sentinel or a parsed delta (lines that
fail to parse are skipped by the code and are not modelled). -/
inductive SSELine where
  | done
  | delta (d : StreamDelta)

/-- One accumulator slot: `{"id": "", "name": "", "arguments": ""}`. -/
structure ToolCallAcc where
  id : String
  fname : String
  arguments : String

/-- `StreamChunk` (`llm_client.py`): text fragment, completed tool call, or
end-of-stream marker. -/
inductive StreamChunk where
  | text (content : String)
  | toolCall (id : String) (fname : String) (arguments : Json)
  | doneChunk (finishReason : Option String)

/-- Dict lookup in the accumulator. -/
def lookupAcc (acc : List (Nat × ToolCallAcc)) (i : Nat) : Option ToolCallAcc :=
  (acc.find? (fun p => p.1 = i)).map (fun p => p.2)

/-- Dict assignment `accumulator[idx] = v`: replace in place, or append at
the end on first occurrence (Python dicts preserve insertion order). -/
def setAcc (acc : List (Nat × ToolCallAcc)) (i : Nat) (v : ToolCallAcc) : List (Nat × ToolCallAcc) :=
  match acc with
  | [] => [(i, v)]
  | p :: ps => if p.1 = i then (i, v) :: ps else p :: setAcc ps i v

/-- Apply one tool-call fragment to the accumulator: a non-empty id or name
overwrites the stored one, and a non-empty argument fragment is appended to
the stored argument text (the `if tc_delta.get(...):` guards are Python
truthiness tests, so empty strings are skipped). -/
def applyToolCallDelta (acc : List (Nat × ToolCallAcc)) (d : ToolCallDelta) : List (Nat × ToolCallAcc) :=
  let cur := (lookupAcc acc d.index).getD ⟨"", "", ""⟩
  let cur := match d.id with
    | some s => if s = "" then cur else { cur with id := s }
    | none => cur
  let cur := match d.fname with
    | some s => if s = "" then cur else { cur with fname := s }
    | none => cur
  let cur := match d.argsFrag with
    | some s => if s = "" then cur else { cur with arguments := cur.arguments ++ s }
    | none => cur
  setAcc acc d.index cur

/-- `sorted(tool_call_accumulator.keys())`. -/
def sortedKeys (acc : List (Nat × ToolCallAcc)) : List Nat :=
  List.insertionSort (fun a b => a ≤ b) (acc.map Prod.fst)

/-- Finalize one accumulated call: parse the concatenated argument text
(`json.loads(...) if acc["arguments"] else {}`, `JSONDecodeError` → `{}`). -/
def emitToolCall (parseJson : String → Option Json) (a : ToolCallAcc) : StreamChunk :=
  .toolCall a.id a.fname
    (if a.arguments = "" then Json.obj [] else (parseJson a.arguments).getD (Json.obj []))

/-- Emission of all accumulated tool calls in ascending index order. -/
def finalizeToolCalls (parseJson : String → Option Json)
    (acc : List (Nat × ToolCallAcc)) : List StreamChunk :=
  (sortedKeys acc).filterMap (fun i => (lookupAcc acc i).map (emitToolCall parseJson))

/-- The stream-consuming loop of `stream_chat_completion`: text fragments
are forwarded immediately, tool-call fragments are accumulated; a
`tool_calls` finish reason emits the accumulated calls then a done chunk
and stops; a `stop` finish reason emits a done chunk and stops; a stream
that ends without a completion signal simply ends. -/
def processLines (parseJson : String → Option Json) :
    List SSELine → List (Nat × ToolCallAcc) → List StreamChunk
  | [], _ => []
  | .done :: _, _ => [.doneChunk none]
  | .delta d :: rest, acc =>
    let textOut : List StreamChunk := match d.content with
      | some c => if c = "" then [] else [.text c]
      | none => []
    let acc' := d.tool_calls.foldl applyToolCallDelta acc
    match d.finishReason with
    | some "tool_calls" =>
        textOut ++ finalizeToolCalls parseJson acc' ++ [.doneChunk (some "tool_calls")]
    | some "stop" => textOut ++ [.doneChunk (some "stop")]
    | _ => textOut ++ processLines parseJson rest acc'

/-- Full parse of a delta stream starting from the empty accumulator. -/
def streamChatCompletion (parseJson : String → Option Json) (lines : List SSELine) : List StreamChunk :=
  processLines parseJson lines []

/-- A single tool call whose argument payload is delivered split into the
given pieces: the first delta carries the id and function name with the
first piece, later deltas carry one piece each, and a final delta signals
`finish_reason = "tool_calls"`. -/
def fragStream (i : Nat) (callId fnameStr : String) (frags : List String) : List SSELine :=
  match frags with
  | [] => [.delta ⟨none, [], some "tool_calls"⟩]
  | f :: rest =>
    .delta ⟨none, [⟨i, some callId, some fnameStr, some f⟩], none⟩ ::
      (rest.map (fun s => SSELine.delta ⟨none, [⟨i, none, none, some s⟩], none⟩) ++
        [.delta ⟨none, [], some "tool_calls"⟩])

/-- Concatenation of the pieces of a fragmented payload. -/
def concatStrings : List String → String
  | [] => ""
  | s :: rest => s ++ concatStrings rest

/-! ## Chat agent state and nodes (`backend/app/agent/state.py`, `nodes.py`)

LangGraph merges the dict a node returns into the state by key replacement;
the models below return the whole updated state.  The LLM call inside
`chat_node` is abstracted as an injected response (`Except` models an
exception escaping the call). -/

/-- `ChatMessage` (`agent/state.py`). -/
structure ChatMessage where
  role : String
  content : Option String
  tool_calls : Option (List PendingToolCall)
  tool_call_id : Option String
  name : Option String

/-- Items appended to `stream_output` by the chat nodes. -/
inductive StreamItem where
  | text (content : Option String)
  | toolStart (tool : String) (arguments : Json)
  | a2ui (messages : List Json)
  | marketDataRequest (district : Option Json) (postcode : Option Json)
  | toolEnd (tool : String) (success : Json)

/-- `ChatAgentState` (`agent/state.py`). -/
structure ChatAgentState where
  messages : List ChatMessage
  pending_tool_calls : List PendingToolCall
  a2ui_messages : List Json
  current_valuation : Option Json
  stream_output : List StreamItem
  error : Option String
  status : String
  should_continue : Bool

/-- The LLM's reply to `chat_completion`: optional content and tool calls
(`None` tool calls and an empty list coincide under Python truthiness). -/
structure LLMResponse where
  content : Option String
  tool_calls : List PendingToolCall

/-- `SYSTEM_PROMPT` (`agent/nodes.py`), elided to its opening sentence; no
claim depends on the prompt text. -/
def SYSTEM_PROMPT : String :=
  "You are RentRadar, a UK property AI assistant. You help users with rental forecasts, property listings, and investment analysis."

/-- The system message prepended by `chat_node` when the history does not
start with one (modelled without the optional profile paragraph, which only
alters the prompt text). -/
def withSystemPrompt (msgs : List ChatMessage) : List ChatMessage :=
  match msgs with
  | [] => [⟨"system", some SYSTEM_PROMPT, none, none, none⟩]
  | m :: _ => if m.role = "system" then msgs else ⟨"system", some SYSTEM_PROMPT, none, none, none⟩ :: msgs

/-- `chat_node`: ask the LLM; on tool calls, append the assistant message
carrying them and hand the calls to the executor; on a direct response,
append the assistant message and finish; an exception from the LLM call is
caught and recorded as the turn's error. -/
def chatNode (resp : Except String LLMResponse) (s : ChatAgentState) : ChatAgentState :=
  match resp with
  | .error e =>
    { s with error := some ("Chat node failed: " ++ e), status := "error", should_continue := false }
  | .ok r =>
    let msgs := withSystemPrompt s.messages
    if r.tool_calls.isEmpty then
      { s with messages := msgs ++ [⟨"assistant", r.content, none, none, none⟩],
               pending_tool_calls := [],
               stream_output := [.text r.content],
               status := "complete",
               should_continue := false }
    else
      { s with messages := msgs ++ [⟨"assistant", r.content, some r.tool_calls, none, none⟩],
               pending_tool_calls := r.tool_calls,
               status := "tool_calling",
               should_continue := true }

/-- `result.get("a2ui_messages")` as a list (the UI-render messages carried
in a tool result). -/
def resultA2uiMessages (r : Json) : List Json :=
  match r.getField "a2ui_messages" with
  | some (.arr xs) => xs
  | _ => []

/-- The `a2ui` stream item appended when the result carries UI-render
messages (`if result.get("a2ui_messages"):`). -/
def a2uiPart (r : Json) : List StreamItem :=
  if (resultA2uiMessages r).isEmpty then [] else [.a2ui (resultA2uiMessages r)]

/-- The `market_data_request` stream item appended when the result carries
one (`if result.get("market_data_request"):`). -/
def marketPart (r : Json) : List StreamItem :=
  match r.getTruthy "market_data_request" with
  | some m => [.marketDataRequest (m.getField "district") (m.getField "postcode")]
  | none => []

/-- `result.get("success", True)`. -/
def resultSuccess (r : Json) : Json :=
  (r.getField "success").getD (.bool true)

/-- The dict sent back to the LLM for one tool call: only summary and
success flag (`llm_result` in `tool_executor_node`). -/
def llmResult (r : Json) : Json :=
  .obj [("summary", (r.getField "summary").getD (.str "Tool executed successfully")),
        ("success", resultSuccess r)]

/-- The `tool` message appended for one resolved call: serialized summary
payload, the call's id and the tool name. -/
def toolResultMsg (c : PendingToolCall) (r : Json) : ChatMessage :=
  ⟨"tool", some (Json.dump (llmResult r)), none, some c.id, some c.name⟩

/-- The `current_valuation` recorded when the result carries a prediction. -/
def valuationOf (r : Json) : Json :=
  .obj [("prediction", (r.getField "prediction").getD .null),
        ("explanation", (r.getField "explanation").getD .null),
        ("location", (r.getField "location").getD .null),
        ("neighbors", (r.getField "neighbors").getD .null)]

/-- The stream items `tool_executor_node` appends for one call: `tool_start`
before execution, then the optional `a2ui` and `market_data_request` items,
then `tool_end`. -/
def toolSegment (c : PendingToolCall) (r : Json) : List StreamItem :=
  .toolStart c.name c.arguments :: (a2uiPart r ++ marketPart r ++ [.toolEnd c.name (resultSuccess r)])

/-- The loop state of `tool_executor_node` (the locals it mutates per call,
plus the cache store touched through `execute_tool`). -/
structure ToolLoopAcc where
  store : CacheStore
  messages : List ChatMessage
  a2ui_messages : List Json
  stream_output : List StreamItem
  current_valuation : Option Json

/-- One iteration of the `for tool_call in pending_calls` loop. -/
def processToolCall (run : String → Json → Except String Json) (now : ℚ)
    (acc : ToolLoopAcc) (c : PendingToolCall) : ToolLoopAcc :=
  let res := resolveToolCall run now acc.store c
  let r := res.1
  { store := res.2.1,
    messages := acc.messages ++ [toolResultMsg c r],
    a2ui_messages := acc.a2ui_messages ++ resultA2uiMessages r,
    stream_output := acc.stream_output ++ toolSegment c r,
    current_valuation :=
      if (r.getTruthy "prediction").isSome then some (valuationOf r) else acc.current_valuation }

/-- `tool_executor_node`: resolve every pending call in order, appending a
`tool` message and the stream items for each, then clear the pending list
and continue the loop. -/
def tool_executor_node (run : String → Json → Except String Json) (now : ℚ)
    (store : CacheStore) (s : ChatAgentState) : ChatAgentState × CacheStore :=
  if s.pending_tool_calls.isEmpty then
    ({ s with status := "no_tools", should_continue := true }, store)
  else
    let init : ToolLoopAcc := ⟨store, s.messages, s.a2ui_messages, s.stream_output, s.current_valuation⟩
    let fin := s.pending_tool_calls.foldl (processToolCall run now) init
    ({ s with messages := fin.messages,
              a2ui_messages := fin.a2ui_messages,
              current_valuation := fin.current_valuation,
              stream_output := fin.stream_output,
              pending_tool_calls := [],
              status := "tools_executed",
              should_continue := true }, fin.store)

/-! ## Chat graph routing and loop (`backend/app/agent/graph.py`) -/

/-- `chat_should_continue`: route after `chat_node`. -/
def chatShouldContinue (s : ChatAgentState) : String :=
  if s.error.isSome then "end"
  else if ¬ s.should_continue then "end"
  else if ¬ s.pending_tool_calls.isEmpty then "execute_tools"
  else "respond"

/-- Outcome of driving the chat graph with bounded fuel: `finished` when the
routing left the loop, `running` when the fuel ran out with the loop still
going. -/
inductive RunResult where
  | finished (s : ChatAgentState) (store : CacheStore)
  | running (s : ChatAgentState) (store : CacheStore)

/-- The compiled chat graph's execution: `chat` node, route via
`chat_should_continue`, run `tool_executor` and loop back on
`"execute_tools"`, otherwise end.  `llm` gives the LLM's reply for each
round; `fuel` bounds the observation depth (the code has no such bound). -/
def runChatGraph (llm : Nat → Except String LLMResponse)
    (run : String → Json → Except String Json) (now : ℚ) :
    Nat → Nat → ChatAgentState → CacheStore → RunResult
  | 0, _, s, store => .running s store
  | fuel + 1, round, s, store =>
    let s₁ := chatNode (llm round) s
    if chatShouldContinue s₁ = "execute_tools" then
      let p := tool_executor_node run now store s₁
      runChatGraph llm run now fuel (round + 1) p.1 p.2
    else
      .finished s₁ store

/-- A language-model stub that requests the same tool call on every round. -/
def alwaysToolCallLLM (c : PendingToolCall) : Nat → Except String LLMResponse :=
  fun _ => .ok ⟨none, [c]⟩

/-- The initial state built by `run_chat_agent` / `stream_chat_agent`. -/
def initialChatState (msgs : List ChatMessage) : ChatAgentState :=
  ⟨msgs, [], [], none, [], none, "thinking", true⟩

/-! ## Outward SSE events (`backend/app/main.py`, `generate_chat_sse_events`)

The SSE generator walks the agent's stream items in order and emits one or
more events per item; an `a2ui` item is expanded into one event per
UI-render message, in list order. -/

/-- Outward SSE events (the tool-related subset produced from stream items). -/
inductive SSEEvent where
  | textEv (content : Option String)
  | toolStartEv (tool : String) (arguments : Json)
  | toolEndEv (tool : String) (success : Json)
  | marketDataRequestEv (district : Option Json) (postcode : Option Json)
  | a2uiEv (message : Json)

/-- Translation of one stream item into outward events. -/
def sseOfStreamItem : StreamItem → List SSEEvent
  | .text c => [.textEv c]
  | .toolStart t a => [.toolStartEv t a]
  | .a2ui msgs => msgs.map .a2uiEv
  | .marketDataRequest d p => [.marketDataRequestEv d p]
  | .toolEnd t su => [.toolEndEv t su]

/-- The outward event sequence for a list of stream items, in arrival order. -/
def sseEvents (items : List StreamItem) : List SSEEvent :=
  items.flatMap sseOfStreamItem

/-! ## Conversation store (`backend/app/db.py`, callers in `main.py`)

The `messages` table has columns `(id, conversation_id, role, content,
a2ui_snapshot, created_at)` — and no tool-call columns.  `created_at` is an
ISO-8601 UTC text timestamp, whose lexicographic order is chronological; it
is modelled as a rational.  `ORDER BY created_at ASC` is modelled as a
stable sort. -/

/-- One row of the `messages` table. -/
structure DbMessage where
  id : String
  conversation_id : String
  role : String
  content : String
  a2ui_snapshot : Option (List Json)
  created_at : ℚ

/-- `db.add_message(conversation_id, role, content, a2ui_snapshot)`: append
one row (`content or ""`; an empty snapshot is stored as NULL). -/
def add_message (db : List DbMessage) (mid cid roleStr : String) (content : Option String)
    (a2ui_snapshot : Option (List Json)) (now : ℚ) : List DbMessage :=
  db ++ [{ id := mid, conversation_id := cid, role := roleStr,
           content := content.getD "",
           a2ui_snapshot := match a2ui_snapshot with
             | some xs => if xs.isEmpty then none else some xs
             | none => none,
           created_at := now }]

/-- One message as returned by `get_conversation_with_messages` (note: no
`tool_call_id` and no tool `name` field exists in the row). -/
structure LoadedMessage where
  id : String
  role : String
  content : String
  a2ui_snapshot : Option (List Json)
  created_at : ℚ

/-- Row-to-response conversion performed by `get_conversation_with_messages`. -/
def loadRow (m : DbMessage) : LoadedMessage :=
  ⟨m.id, m.role, m.content, m.a2ui_snapshot, m.created_at⟩

/-- `get_conversation_with_messages`' message query: the conversation's rows
ordered by `created_at` ascending. -/
def get_conversation_messages (db : List DbMessage) (cid : String) : List LoadedMessage :=
  (List.insertionSort (fun a b => a.created_at ≤ b.created_at)
      (db.filter (fun m => m.conversation_id = cid))).map loadRow

/-- How `main.py` persists a chat message: `add_message` receives only the
role and text content (`chat_db.add_message(cid, "user", message)` and
`chat_db.add_message(cid, "assistant", full_text, a2ui_snapshot=...)`); a
`ChatMessage`'s `tool_calls`, `tool_call_id` and `name` fields have no
corresponding parameter or column. -/
def persistMessage (db : List DbMessage) (mid cid : String) (m : ChatMessage) (now : ℚ) : List DbMessage :=
  add_message db mid cid m.role m.content none now

/-! # Theorems -/

/-! ## Cache lemmas -/

/-- Looking up the key just written finds the fresh entry. -/
theorem lookupEntry_set_self (now ttl : ℚ) (key : String) (v : Json) (st : CacheStore) :
    lookupEntry (Cache.set now ttl key v st) key = some (v, now + ttl) := by
  simp [Cache.set, lookupEntry, List.find?]

/-- Unfolding of `lookupEntry` on a cons cell. -/
theorem lookupEntry_cons (k₁ : String) (v₁ : Json) (e₁ : ℚ) (tl : CacheStore) (key : String) :
    lookupEntry ((k₁, v₁, e₁) :: tl) key =
      if k₁ = key then some (v₁, e₁) else lookupEntry tl key := by
  by_cases h : k₁ = key <;> simp [lookupEntry, List.find?, h]

/-- After deletion the key is absent. -/
theorem lookupEntry_erase_self (st : CacheStore) (key : String) :
    lookupEntry (eraseEntry st key) key = none := by
  induction st with
  | nil => rfl
  | cons hd tl ih =>
    obtain ⟨k₁, v₁, e₁⟩ := hd
    by_cases h : k₁ = key
    · simpa [eraseEntry, h] using ih
    · simpa [eraseEntry, List.filter_cons, h, lookupEntry_cons] using ih

/-- An entry found in the store survives the expiry filter of
`_load_from_disk` when it is unexpired. -/
theorem lookupEntry_loadFromDisk (st : CacheStore) (key : String) (v : Json) (e now : ℚ)
    (h : lookupEntry st key = some (v, e)) (hn : now < e) :
    lookupEntry (loadFromDisk st now) key = some (v, e) := by
  induction st with
  | nil => simp [lookupEntry] at h
  | cons hd tl ih =>
    obtain ⟨k₁, v₁, e₁⟩ := hd
    rw [lookupEntry_cons] at h
    by_cases hk : k₁ = key
    · rw [if_pos hk] at h
      obtain ⟨hv, he⟩ := Prod.mk.injEq .. ▸ Option.some.injEq .. ▸ h
      subst hv; subst he
      simp [loadFromDisk, List.filter_cons, hn, lookupEntry_cons, hk]
    · rw [if_neg hk] at h
      have hres := ih h
      by_cases hkeep : now < e₁
      · simpa [loadFromDisk, List.filter_cons, hkeep, lookupEntry_cons, hk] using hres
      · simpa [loadFromDisk, List.filter_cons, hkeep] using hres

/-! ## C5 — TTL expiry -/

/-- C5: a cache entry written at time `t` with time-to-live `ttl` is never
returned by a read at `t + ttl + ε` for any `ε > 0`: such a read is a miss,
and it lazily purges the expired entry from the store. -/
theorem cache_entry_expires_after_ttl (st : CacheStore) (key : String) (v : Json) (t ttl ε : ℚ)
    (hε : 0 < ε) :
    (Cache.get (t + ttl + ε) (Cache.set t ttl key v st) key).1 = none ∧
    lookupEntry (Cache.get (t + ttl + ε) (Cache.set t ttl key v st) key).2 key = none := by
  have hl := lookupEntry_set_self t ttl key v st
  have hexp : t + ttl < t + ttl + ε := by linarith
  constructor
  · unfold Cache.get
    rw [hl]
    simp [hexp]
  · unfold Cache.get
    rw [hl]
    simp [hexp, lookupEntry_erase_self]

/-- Witness for C5 at a concrete write and a read one second past expiry. -/
theorem cache_entry_expires_after_ttl_witness :
    (Cache.get (0 + 3600 + 1) (Cache.set 0 3600 "k" Json.null []) "k").1 = none ∧
    lookupEntry (Cache.get (0 + 3600 + 1) (Cache.set 0 3600 "k" Json.null []) "k").2 "k" = none :=
  cache_entry_expires_after_ttl [] "k" Json.null 0 3600 1 (by norm_num)

/-! ## C9 — durability of cache writes across restarts -/

/-- C9: saving the store to disk and reloading at time `now` keeps every
unexpired entry with its value and expiry unchanged, drops only expired
entries, and an identical request at a later time `t'` inside the TTL
window is still a hit. -/
theorem cache_survives_restart (st : CacheStore) (key : String) (v : Json) (e now t' : ℚ)
    (h : lookupEntry st key = some (v, e)) (hnow : now < e) (ht' : t' ≤ e) :
    lookupEntry (loadFromDisk (saveToDisk st) now) key = some (v, e) ∧
    (Cache.get t' (loadFromDisk (saveToDisk st) now) key).1 = some v ∧
    ∀ x ∈ loadFromDisk (saveToDisk st) now, x ∈ st ∧ now < x.2.2 := by
  have h1 : lookupEntry (loadFromDisk (saveToDisk st) now) key = some (v, e) :=
    lookupEntry_loadFromDisk st key v e now h hnow
  refine ⟨h1, ?_, ?_⟩
  · unfold Cache.get
    rw [h1]
    have hlt : ¬ e < t' := not_lt.mpr ht'
    simp [hlt]
  · intro x hx
    simp only [loadFromDisk, saveToDisk, List.mem_filter, decide_eq_true_eq] at hx
    exact hx

/-- Witness for C9: a store holding one entry expiring at 10, reloaded at
time 0 and read at time 5. -/
theorem cache_survives_restart_witness :
    lookupEntry (loadFromDisk (saveToDisk [("k", Json.null, 10)]) 0) "k" = some (Json.null, 10) ∧
    (Cache.get 5 (loadFromDisk (saveToDisk [("k", Json.null, 10)]) 0) "k").1 = some Json.null ∧
    ∀ x ∈ loadFromDisk (saveToDisk [("k", Json.null, (10 : ℚ))]) 0,
      x ∈ [("k", Json.null, (10 : ℚ))] ∧ (0 : ℚ) < x.2.2 :=
  cache_survives_restart [("k", Json.null, 10)] "k" Json.null 10 0 5 rfl (by norm_num) (by norm_num)

/-! ## C10 — unknown tool dispatch -/

/-- C10: dispatching a name outside the registry returns the
`success=False` dict naming the unknown tool, raises no exception, invokes
no executor, and leaves the cache store unchanged (given that no entry sits
under the dispatch key, which holds in every run since unknown-tool
dispatches never write one). -/
theorem unknown_tool_dispatch (run : String → Json → Except String Json) (now : ℚ)
    (st : CacheStore) (toolName : String) (args : Json)
    (hunk : isKnownTool toolName = false)
    (hmiss : lookupEntry st (cacheKey toolName args) = none) :
    executeTool run now st toolName args = (.ok (unknownToolResult toolName), st, 0) ∧
    (unknownToolResult toolName).getField "success" = some (.bool false) ∧
    (unknownToolResult toolName).getField "error" = some (.str ("Unknown tool: " ++ toolName)) := by
  have hget : Cache.get now st (cacheKey toolName args) = (none, st) := by
    unfold Cache.get; rw [hmiss]
  refine ⟨?_, rfl, rfl⟩
  simp [executeTool, hget, hunk]

/-- Witness for C10 at the concrete unknown name `"bogus"`. -/
theorem unknown_tool_dispatch_witness :
    executeTool (fun _ _ => Except.ok Json.null) 0 [] "bogus" Json.null =
      (.ok (unknownToolResult "bogus"), [], 0) ∧
    (unknownToolResult "bogus").getField "success" = some (.bool false) ∧
    (unknownToolResult "bogus").getField "error" = some (.str ("Unknown tool: " ++ "bogus")) :=
  unknown_tool_dispatch (fun _ _ => Except.ok Json.null) 0 [] "bogus" Json.null rfl rfl

/-! ## C4 — idempotent cache within the TTL window -/

/-- C4: for a known tool, a first (miss) dispatch invokes the executor
exactly once and stores its result; a second dispatch of the same
`(name, arguments)` within the TTL window returns exactly the stored result
— the whole result value, UI-render messages included — without invoking
the executor, so the executor runs at most once across the two calls. -/
theorem dispatcher_idempotent_within_ttl (run : String → Json → Except String Json)
    (t₁ t₂ : ℚ) (st : CacheStore) (toolName : String) (args out : Json)
    (hk : isKnownTool toolName = true)
    (ha : argOk toolName args = true)
    (hrun : run toolName args = .ok out)
    (hmiss : lookupEntry st (cacheKey toolName args) = none)
    (hTTL : t₂ ≤ t₁ + DEFAULT_TTL_SECONDS) :
    executeTool run t₁ st toolName args =
      (.ok out, Cache.set t₁ DEFAULT_TTL_SECONDS (cacheKey toolName args) out st, 1) ∧
    executeTool run t₂ (Cache.set t₁ DEFAULT_TTL_SECONDS (cacheKey toolName args) out st) toolName args =
      (.ok out, Cache.set t₁ DEFAULT_TTL_SECONDS (cacheKey toolName args) out st, 0) := by
  have hget1 : Cache.get t₁ st (cacheKey toolName args) = (none, st) := by
    unfold Cache.get; rw [hmiss]
  have hget2 : Cache.get t₂ (Cache.set t₁ DEFAULT_TTL_SECONDS (cacheKey toolName args) out st)
      (cacheKey toolName args) =
      (some out, Cache.set t₁ DEFAULT_TTL_SECONDS (cacheKey toolName args) out st) := by
    unfold Cache.get
    rw [lookupEntry_set_self]
    have hlt : ¬ t₁ + DEFAULT_TTL_SECONDS < t₂ := not_lt.mpr hTTL
    simp [hlt]
  constructor
  · cases hreq : requiredArgKey toolName with
    | none => simp [executeTool, hget1, hk, hreq, hrun]
    | some k =>
      have hsome : (args.getField k).isSome := by simpa [argOk, hreq] using ha
      obtain ⟨w, hw⟩ := Option.isSome_iff_exists.mp hsome
      simp [executeTool, hget1, hk, hreq, hrun, hw]
  · simp [executeTool, hget2]

/-- Witness for C4: `get_market_data` dispatched twice at times 0 and 10
from an empty store, with an executor returning a result that carries a
UI-render message. -/
theorem dispatcher_idempotent_within_ttl_witness :
    executeTool
        (fun _ _ => Except.ok (Json.obj [("success", Json.bool true), ("summary", Json.str "ok"),
          ("a2ui_messages", Json.arr [Json.null])]))
        0 [] "get_market_data" (Json.obj [("location", Json.str "NW1")]) =
      (.ok (Json.obj [("success", Json.bool true), ("summary", Json.str "ok"),
          ("a2ui_messages", Json.arr [Json.null])]),
        Cache.set 0 DEFAULT_TTL_SECONDS
          (cacheKey "get_market_data" (Json.obj [("location", Json.str "NW1")]))
          (Json.obj [("success", Json.bool true), ("summary", Json.str "ok"),
            ("a2ui_messages", Json.arr [Json.null])]) [], 1) ∧
    executeTool
        (fun _ _ => Except.ok (Json.obj [("success", Json.bool true), ("summary", Json.str "ok"),
          ("a2ui_messages", Json.arr [Json.null])]))
        10 (Cache.set 0 DEFAULT_TTL_SECONDS
          (cacheKey "get_market_data" (Json.obj [("location", Json.str "NW1")]))
          (Json.obj [("success", Json.bool true), ("summary", Json.str "ok"),
            ("a2ui_messages", Json.arr [Json.null])]) [])
        "get_market_data" (Json.obj [("location", Json.str "NW1")]) =
      (.ok (Json.obj [("success", Json.bool true), ("summary", Json.str "ok"),
          ("a2ui_messages", Json.arr [Json.null])]),
        Cache.set 0 DEFAULT_TTL_SECONDS
          (cacheKey "get_market_data" (Json.obj [("location", Json.str "NW1")]))
          (Json.obj [("success", Json.bool true), ("summary", Json.str "ok"),
            ("a2ui_messages", Json.arr [Json.null])]) [], 0) :=
  dispatcher_idempotent_within_ttl
    (fun _ _ => Except.ok (Json.obj [("success", Json.bool true), ("summary", Json.str "ok"),
      ("a2ui_messages", Json.arr [Json.null])]))
    0 10 [] "get_market_data" (Json.obj [("location", Json.str "NW1")])
    (Json.obj [("success", Json.bool true), ("summary", Json.str "ok"),
      ("a2ui_messages", Json.arr [Json.null])])
    rfl rfl rfl rfl (by norm_num [DEFAULT_TTL_SECONDS])

/-! ## C2 — fault containment at the dispatch boundary -/

/-- C2 counterexample: `execute_tool` itself *does* raise on a malformed
argument payload — dispatching `get_rent_forecast` with empty arguments
performs `arguments["location"]` and the `KeyError` escapes `execute_tool`
(modelled as `Except.error`), for every executor behaviour. -/
theorem execute_tool_raises_on_malformed_args :
    (executeTool (fun _ _ => Except.ok Json.null) 0 [] "get_rent_forecast" (Json.obj [])).1 =
      Except.error "'location'" := rfl

/-- C2 amended: exceptions escaping `execute_tool` (executor faults and
malformed argument payloads alike) are caught one level up, at the per-call
`try/except` in `tool_executor_node`, and converted into a result with
`success=False` and a human-readable summary; a successful dispatch is
passed through unchanged; and the executor node itself never fails — it
finishes with `should_continue=True`, status `tools_executed` and an
unchanged error field, so the orchestration loop continues. -/
theorem tool_faults_contained_at_executor_boundary
    (run : String → Json → Except String Json) (now : ℚ) (st : CacheStore) (c : PendingToolCall) :
    (∀ msg, (executeTool run now st c.name c.arguments).1 = .error msg →
      ((resolveToolCall run now st c).1.getField "success" = some (.bool false) ∧
       (resolveToolCall run now st c).1.getField "summary" =
         some (.str (c.name ++ " failed: " ++ msg)))) ∧
    (∀ r, (executeTool run now st c.name c.arguments).1 = .ok r →
      (resolveToolCall run now st c).1 = r) ∧
    (∀ s : ChatAgentState, s.pending_tool_calls.isEmpty = false →
      ((tool_executor_node run now st s).1.error = s.error ∧
       (tool_executor_node run now st s).1.should_continue = true ∧
       (tool_executor_node run now st s).1.status = "tools_executed")) := by
  refine ⟨?_, ?_, ?_⟩
  · intro msg hmsg
    rcases hre : executeTool run now st c.name c.arguments with ⟨res, st', n⟩
    rw [hre] at hmsg
    simp only at hmsg
    subst hmsg
    simp [resolveToolCall, hre, Json.getField, List.lookup]
  · intro r hr
    rcases hre : executeTool run now st c.name c.arguments with ⟨res, st', n⟩
    rw [hre] at hr
    simp only at hr
    subst hr
    simp [resolveToolCall, hre]
  · intro s hps
    simp [tool_executor_node, hps]

/-- Witness for C2 (amended): an executor that throws `"boom"` on
`get_market_data` is converted to a `success=False` summary result, and the
executor node still finishes continuing the loop. -/
theorem tool_faults_contained_witness :
    ((resolveToolCall (fun _ _ => Except.error "boom") 0 []
        ⟨"id1", "get_market_data", Json.obj [("location", Json.str "NW1")]⟩).1.getField "success" =
        some (.bool false) ∧
     (resolveToolCall (fun _ _ => Except.error "boom") 0 []
        ⟨"id1", "get_market_data", Json.obj [("location", Json.str "NW1")]⟩).1.getField "summary" =
        some (.str ("get_market_data" ++ " failed: " ++ "boom"))) ∧
    (((tool_executor_node (fun _ _ => Except.error "boom") 0 []
        ⟨[], [⟨"id1", "get_market_data", Json.obj [("location", Json.str "NW1")]⟩], [], none, [],
          none, "thinking", true⟩).1.error =
      (⟨[], [⟨"id1", "get_market_data", Json.obj [("location", Json.str "NW1")]⟩], [], none, [],
          none, "thinking", true⟩ : ChatAgentState).error) ∧
     (tool_executor_node (fun _ _ => Except.error "boom") 0 []
        ⟨[], [⟨"id1", "get_market_data", Json.obj [("location", Json.str "NW1")]⟩], [], none, [],
          none, "thinking", true⟩).1.should_continue = true ∧
     (tool_executor_node (fun _ _ => Except.error "boom") 0 []
        ⟨[], [⟨"id1", "get_market_data", Json.obj [("location", Json.str "NW1")]⟩], [], none, [],
          none, "thinking", true⟩).1.status = "tools_executed") :=
  ⟨(tool_faults_contained_at_executor_boundary (fun _ _ => Except.error "boom") 0 []
      ⟨"id1", "get_market_data", Json.obj [("location", Json.str "NW1")]⟩).1 "boom" rfl,
   (tool_faults_contained_at_executor_boundary (fun _ _ => Except.error "boom") 0 []
      ⟨"id1", "get_market_data", Json.obj [("location", Json.str "NW1")]⟩).2.2
      ⟨[], [⟨"id1", "get_market_data", Json.obj [("location", Json.str "NW1")]⟩], [], none, [],
        none, "thinking", true⟩ rfl⟩

/-! ## C6 — pairing of tool messages with the assistant's requests -/

/-- The executor loop appends exactly one `tool` message per pending call,
in request order, carrying that call's id and tool name. -/
theorem foldl_processToolCall_messages (run : String → Json → Except String Json) (now : ℚ) :
    ∀ (calls : List PendingToolCall) (acc : ToolLoopAcc),
      ∃ tms : List ChatMessage,
        (calls.foldl (processToolCall run now) acc).messages = acc.messages ++ tms ∧
        tms.map (fun m => (m.role, m.tool_call_id, m.name)) =
          calls.map (fun c => ("tool", some c.id, some c.name)) := by
  intro calls
  induction calls with
  | nil => intro acc; exact ⟨[], by simp, by simp⟩
  | cons c cs ih =>
    intro acc
    obtain ⟨tms, htms, hmap⟩ := ih (processToolCall run now acc c)
    refine ⟨toolResultMsg c (resolveToolCall run now acc.store c).1 :: tms, ?_, ?_⟩
    · rw [List.foldl_cons, htms]
      simp [processToolCall]
    · simp [hmap, toolResultMsg]

/-- C6: when the last message is an assistant message carrying the pending
tool-call requests, the executor node appends exactly N `tool` messages,
whose `tool_call_id`s are exactly the N requested ids in request order; and
with distinct request ids each appended id matches exactly one request of
that assistant message. -/
theorem tool_messages_pair_with_assistant_requests
    (run : String → Json → Except String Json) (now : ℚ) (store : CacheStore)
    (s : ChatAgentState) (ms : List ChatMessage) (am : ChatMessage)
    (calls : List PendingToolCall)
    (hmsgs : s.messages = ms ++ [am])
    (hamtc : am.tool_calls = some calls)
    (hpend : s.pending_tool_calls = calls) (hne : calls ≠ []) :
    ∃ tms : List ChatMessage,
      (tool_executor_node run now store s).1.messages = (ms ++ [am]) ++ tms ∧
      tms.length = calls.length ∧
      tms.map (fun m => (m.role, m.tool_call_id, m.name)) =
        calls.map (fun c => ("tool", some c.id, some c.name)) ∧
      ((calls.map (fun c => c.id)).Nodup →
        ∀ i (hi : i < calls.length),
          (calls.map (fun c => c.id)).count (calls.get ⟨i, hi⟩).id = 1) := by
  have hpe : s.pending_tool_calls.isEmpty = false := by
    rw [hpend]; cases calls with
    | nil => exact absurd rfl hne
    | cons a l => rfl
  obtain ⟨tms, htms, hmap⟩ :=
    foldl_processToolCall_messages run now s.pending_tool_calls
      ⟨store, s.messages, s.a2ui_messages, s.stream_output, s.current_valuation⟩
  refine ⟨tms, ?_, ?_, ?_, ?_⟩
  · rw [← hmsgs]
    simpa [tool_executor_node, hpe] using htms
  · have := congrArg List.length hmap
    simpa [hpend] using this
  · rw [← hpend]; exact hmap
  · intro hnd i hi
    exact List.count_eq_one_of_mem hnd
      (List.mem_map_of_mem (fun c => c.id) (calls.get_mem i hi))

/-- Witness for C6: two pending calls behind a matching assistant message. -/
theorem tool_messages_pair_witness :
    ∃ tms : List ChatMessage,
      (tool_executor_node (fun _ _ => Except.ok Json.null) 0 []
          ⟨[⟨"user", some "hi", none, none, none⟩,
            ⟨"assistant", none, some [⟨"id1", "t1", Json.null⟩, ⟨"id2", "t2", Json.null⟩], none, none⟩],
            [⟨"id1", "t1", Json.null⟩, ⟨"id2", "t2", Json.null⟩], [], none, [], none, "tool_calling",
            true⟩).1.messages =
        ([⟨"user", some "hi", none, none, none⟩] ++
          [⟨"assistant", none, some [⟨"id1", "t1", Json.null⟩, ⟨"id2", "t2", Json.null⟩], none, none⟩]) ++ tms ∧
      tms.length = ([⟨"id1", "t1", Json.null⟩, ⟨"id2", "t2", Json.null⟩] : List PendingToolCall).length ∧
      tms.map (fun m => (m.role, m.tool_call_id, m.name)) =
        ([⟨"id1", "t1", Json.null⟩, ⟨"id2", "t2", Json.null⟩] : List PendingToolCall).map
          (fun c => ("tool", some c.id, some c.name)) ∧
      ((([⟨"id1", "t1", Json.null⟩, ⟨"id2", "t2", Json.null⟩] : List PendingToolCall).map
          (fun c => c.id)).Nodup →
        ∀ i (hi : i < ([⟨"id1", "t1", Json.null⟩, ⟨"id2", "t2", Json.null⟩] : List PendingToolCall).length),
          (([⟨"id1", "t1", Json.null⟩, ⟨"id2", "t2", Json.null⟩] : List PendingToolCall).map
            (fun c => c.id)).count
            (([⟨"id1", "t1", Json.null⟩, ⟨"id2", "t2", Json.null⟩] : List PendingToolCall).get ⟨i, hi⟩).id = 1) :=
  tool_messages_pair_with_assistant_requests (fun _ _ => Except.ok Json.null) 0 []
    ⟨[⟨"user", some "hi", none, none, none⟩,
      ⟨"assistant", none, some [⟨"id1", "t1", Json.null⟩, ⟨"id2", "t2", Json.null⟩], none, none⟩],
      [⟨"id1", "t1", Json.null⟩, ⟨"id2", "t2", Json.null⟩], [], none, [], none, "tool_calling", true⟩
    [⟨"user", some "hi", none, none, none⟩]
    ⟨"assistant", none, some [⟨"id1", "t1", Json.null⟩, ⟨"id2", "t2", Json.null⟩], none, none⟩
    [⟨"id1", "t1", Json.null⟩, ⟨"id2", "t2", Json.null⟩]
    rfl rfl rfl (by simp)

/-! ## C7 — event ordering per tool call -/

/-- Indexing past a prefix of an append. -/
theorem get?_append_add {α : Type} (xs ys : List α) (t : Nat) :
    (xs ++ ys).get? (xs.length + t) = ys.get? t := by
  induction xs with
  | nil => simp
  | cons a l ih => simpa [Nat.succ_add] using ih

/-- `sseEvents` distributes over append. -/
theorem sseEvents_append (xs ys : List StreamItem) :
    sseEvents (xs ++ ys) = sseEvents xs ++ sseEvents ys := by
  simp [sseEvents]

/-- The events of the optional `a2ui` stream item are exactly one
`a2ui` event per UI-render message, in order. -/
theorem sseEvents_a2uiPart (r : Json) :
    (a2uiPart r).flatMap sseOfStreamItem = (resultA2uiMessages r).map SSEEvent.a2uiEv := by
  by_cases h : (resultA2uiMessages r).isEmpty
  · rw [List.isEmpty_iff] at h
    simp [a2uiPart, h]
  · simp [a2uiPart, h, sseOfStreamItem]

/-- Positions inside one `start :: (renders ++ market ++ [end])` event
segment embedded between arbitrary surrounding events. -/
theorem segment_event_positions {α : Type} (P A M post : List α) (x y : α) :
    (P ++ x :: (A ++ (M ++ (y :: post)))).get? P.length = some x ∧
    (P ++ x :: (A ++ (M ++ (y :: post)))).get? (P.length + (1 + (A.length + M.length))) = some y ∧
    ∀ m, m < A.length →
      (P ++ x :: (A ++ (M ++ (y :: post)))).get? (P.length + (1 + m)) = A.get? m := by
  refine ⟨?_, ?_, ?_⟩
  · have h := get?_append_add P (x :: (A ++ (M ++ (y :: post)))) 0
    simpa using h
  · have h := get?_append_add P (x :: (A ++ (M ++ (y :: post)))) (1 + (A.length + M.length))
    rw [h]
    have h2 : (x :: (A ++ (M ++ (y :: post)))).get? (1 + (A.length + M.length)) =
        (A ++ (M ++ (y :: post))).get? (A.length + M.length) := by
      simp [Nat.add_comm 1]
    rw [h2, get?_append_add A (M ++ (y :: post)) M.length]
    have h3 := get?_append_add M (y :: post) 0
    simpa using h3
  · intro m hm
    rw [get?_append_add P (x :: (A ++ (M ++ (y :: post)))) (1 + m)]
    have h2 : (x :: (A ++ (M ++ (y :: post)))).get? (1 + m) =
        (A ++ (M ++ (y :: post))).get? m := by
      simp [Nat.add_comm 1]
    rw [h2]
    exact List.get?_append hm

/-- The executor loop only appends to `stream_output`. -/
theorem foldl_processToolCall_stream_append (run : String → Json → Except String Json) (now : ℚ) :
    ∀ (calls : List PendingToolCall) (acc : ToolLoopAcc),
      ∃ tail, (calls.foldl (processToolCall run now) acc).stream_output =
        acc.stream_output ++ tail := by
  intro calls
  induction calls with
  | nil => intro acc; exact ⟨[], by simp⟩
  | cons c cs ih =>
    intro acc
    obtain ⟨tail, htail⟩ := ih (processToolCall run now acc c)
    refine ⟨toolSegment c (resolveToolCall run now acc.store c).1 ++ tail, ?_⟩
    rw [List.foldl_cons, htail]
    simp [processToolCall]

/-- The stream output of the executor loop decomposes, for each call, into
a prefix, that call's segment (for its resolved result), and a suffix. -/
theorem foldl_processToolCall_stream_decompose (run : String → Json → Except String Json) (now : ℚ) :
    ∀ (calls : List PendingToolCall) (acc : ToolLoopAcc) (k : Nat) (hk : k < calls.length),
      ∃ (pre : List StreamItem) (r : Json) (post : List StreamItem),
        (calls.foldl (processToolCall run now) acc).stream_output =
          pre ++ toolSegment (calls.get ⟨k, hk⟩) r ++ post := by
  intro calls
  induction calls with
  | nil => intro acc k hk; exact absurd hk (by simp)
  | cons c cs ih =>
    intro acc k hk
    cases k with
    | zero =>
      obtain ⟨tail, htail⟩ :=
        foldl_processToolCall_stream_append run now cs (processToolCall run now acc c)
      refine ⟨acc.stream_output, (resolveToolCall run now acc.store c).1, tail, ?_⟩
      rw [List.foldl_cons, htail]
      simp [processToolCall]
    | succ k' =>
      obtain ⟨pre, r, post, h⟩ := ih (processToolCall run now acc c) k' (by simpa using hk)
      refine ⟨pre, r, post, ?_⟩
      rw [List.foldl_cons]
      simpa using h

/-- C7: in the outward event stream of the executor node, each pending tool
call has its `tool_start` event at a strictly smaller index than its
`tool_end` event, and the `a2ui` (render-update) events carried by its
result sit strictly between the two — for every executor behaviour, cache
hit or miss alike. -/
theorem tool_event_ordering (run : String → Json → Except String Json) (now : ℚ)
    (store : CacheStore) (s : ChatAgentState) (k : Nat)
    (hk : k < s.pending_tool_calls.length) :
    ∃ (i j : Nat) (r : Json),
      i < j ∧
      (sseEvents (tool_executor_node run now store s).1.stream_output).get? i =
        some (.toolStartEv (s.pending_tool_calls.get ⟨k, hk⟩).name
          (s.pending_tool_calls.get ⟨k, hk⟩).arguments) ∧
      (sseEvents (tool_executor_node run now store s).1.stream_output).get? j =
        some (.toolEndEv (s.pending_tool_calls.get ⟨k, hk⟩).name (resultSuccess r)) ∧
      ∀ m (hm : m < (resultA2uiMessages r).length),
        i < i + 1 + m ∧ i + 1 + m < j ∧
        (sseEvents (tool_executor_node run now store s).1.stream_output).get? (i + 1 + m) =
          some (.a2uiEv ((resultA2uiMessages r).get ⟨m, hm⟩)) := by
  have hpe : s.pending_tool_calls.isEmpty = false := by
    cases h : s.pending_tool_calls with
    | nil => rw [h] at hk; exact absurd hk (by simp)
    | cons a l => rfl
  obtain ⟨pre, r, post, hdec⟩ :=
    foldl_processToolCall_stream_decompose run now s.pending_tool_calls
      ⟨store, s.messages, s.a2ui_messages, s.stream_output, s.current_valuation⟩ k hk
  have hout : (tool_executor_node run now store s).1.stream_output =
      pre ++ toolSegment (s.pending_tool_calls.get ⟨k, hk⟩) r ++ post := by
    simpa [tool_executor_node, hpe] using hdec
  set c := s.pending_tool_calls.get ⟨k, hk⟩ with hc
  have hev : sseEvents (tool_executor_node run now store s).1.stream_output =
      sseEvents pre ++ SSEEvent.toolStartEv c.name c.arguments ::
        ((resultA2uiMessages r).map SSEEvent.a2uiEv ++
          (sseEvents (marketPart r) ++
            (SSEEvent.toolEndEv c.name (resultSuccess r) :: sseEvents post))) := by
    rw [hout, sseEvents_append, sseEvents_append, toolSegment]
    simp [sseEvents, sseEvents_a2uiPart, sseOfStreamItem]
  obtain ⟨hstart, hend, hmid⟩ :=
    segment_event_positions (sseEvents pre)
      ((resultA2uiMessages r).map SSEEvent.a2uiEv) (sseEvents (marketPart r)) (sseEvents post)
      (SSEEvent.toolStartEv c.name c.arguments)
      (SSEEvent.toolEndEv c.name (resultSuccess r))
  refine ⟨(sseEvents pre).length,
    (sseEvents pre).length + (1 + (((resultA2uiMessages r).map SSEEvent.a2uiEv).length +
      (sseEvents (marketPart r)).length)), r, ?_, ?_, ?_, ?_⟩
  · omega
  · rw [hev]; exact hstart
  · rw [hev]; exact hend
  · intro m hm
    have hm' : m < ((resultA2uiMessages r).map SSEEvent.a2uiEv).length := by simpa using hm
    refine ⟨by omega, by simp; omega, ?_⟩
    have := hmid m hm'
    rw [hev]
    have harith : (sseEvents pre).length + 1 + m = (sseEvents pre).length + (1 + m) := by omega
    rw [harith, this]
    rw [List.get?_map]
    simp [List.get?_eq_get hm]

/-- Witness for C7: a single pending call through an executor that throws. -/
theorem tool_event_ordering_witness :
    ∃ (i j : Nat) (r : Json),
      i < j ∧
      (sseEvents (tool_executor_node (fun _ _ => Except.error "boom") 0 []
          ⟨[], [⟨"id1", "t", Json.null⟩], [], none, [], none, "thinking", true⟩).1.stream_output).get? i =
        some (.toolStartEv (([⟨"id1", "t", Json.null⟩] : List PendingToolCall).get ⟨0, by simp⟩).name
          (([⟨"id1", "t", Json.null⟩] : List PendingToolCall).get ⟨0, by simp⟩).arguments) ∧
      (sseEvents (tool_executor_node (fun _ _ => Except.error "boom") 0 []
          ⟨[], [⟨"id1", "t", Json.null⟩], [], none, [], none, "thinking", true⟩).1.stream_output).get? j =
        some (.toolEndEv (([⟨"id1", "t", Json.null⟩] : List PendingToolCall).get ⟨0, by simp⟩).name
          (resultSuccess r)) ∧
      ∀ m (hm : m < (resultA2uiMessages r).length),
        i < i + 1 + m ∧ i + 1 + m < j ∧
        (sseEvents (tool_executor_node (fun _ _ => Except.error "boom") 0 []
            ⟨[], [⟨"id1", "t", Json.null⟩], [], none, [], none, "thinking", true⟩).1.stream_output).get?
          (i + 1 + m) = some (.a2uiEv ((resultA2uiMessages r).get ⟨m, hm⟩)) :=
  tool_event_ordering (fun _ _ => Except.error "boom") 0 []
    ⟨[], [⟨"id1", "t", Json.null⟩], [], none, [], none, "thinking", true⟩ 0 (by simp)

/-! ## C3 — fragmented tool-call reconstruction -/

/-- Feeding the trailing argument fragments of one call and the
`tool_calls` finish line accumulates the concatenation of the fragments. -/
theorem processLines_fragTail (pj : String → Option Json) (i : Nat) :
    ∀ (rest : List String) (a : ToolCallAcc),
      processLines pj
        (rest.map (fun s => SSELine.delta ⟨none, [⟨i, none, none, some s⟩], none⟩) ++
          [.delta ⟨none, [], some "tool_calls"⟩]) [(i, a)] =
      finalizeToolCalls pj [(i, ⟨a.id, a.fname, a.arguments ++ concatStrings rest⟩)] ++
        [.doneChunk (some "tool_calls")] := by
  intro rest
  induction rest with
  | nil =>
    intro a
    obtain ⟨aid, afn, aargs⟩ := a
    simp [processLines, concatStrings, String.append_empty]
  | cons s ss ih =>
    intro a
    obtain ⟨aid, afn, aargs⟩ := a
    have happ : applyToolCallDelta [(i, ⟨aid, afn, aargs⟩)] ⟨i, none, none, some s⟩ =
        [(i, ⟨aid, afn, if s = "" then aargs else aargs ++ s⟩)] := by
      by_cases hs : s = "" <;> simp [applyToolCallDelta, lookupAcc, setAcc, hs]
    have hstep : processLines pj
        ((SSELine.delta ⟨none, [⟨i, none, none, some s⟩], none⟩) ::
          (ss.map (fun s => SSELine.delta ⟨none, [⟨i, none, none, some s⟩], none⟩) ++
            [.delta ⟨none, [], some "tool_calls"⟩])) [(i, ⟨aid, afn, aargs⟩)] =
        processLines pj
          (ss.map (fun s => SSELine.delta ⟨none, [⟨i, none, none, some s⟩], none⟩) ++
            [.delta ⟨none, [], some "tool_calls"⟩])
          [(i, ⟨aid, afn, if s = "" then aargs else aargs ++ s⟩)] := by
      simp [processLines, happ]
    rw [List.map_cons, List.cons_append, hstep, ih]
    by_cases hs : s = ""
    · subst hs
      simp [concatStrings, String.empty_append]
    · simp [hs, concatStrings, String.append_assoc]

/-- C3: (1) a tool call delivered fragmented is reconstructed exactly: on
the `tool_calls` finish reason it is emitted with arguments equal to the
parse of the concatenated (i.e. unfragmented) payload, the empty or
unparsable payload yielding empty arguments instead of raising; (2) the
accumulated calls are emitted in ascending slot-index order
(`sorted(keys)`); (3) argument text that fails to parse always yields
empty arguments. -/
theorem streaming_parser_reconstruction (pj : String → Option Json) :
    (∀ (i : Nat) (callId fnameStr : String) (frags : List String), frags ≠ [] →
      callId ≠ "" → fnameStr ≠ "" →
      streamChatCompletion pj (fragStream i callId fnameStr frags) =
        [.toolCall callId fnameStr
          (if concatStrings frags = "" then Json.obj []
           else (pj (concatStrings frags)).getD (Json.obj [])),
         .doneChunk (some "tool_calls")]) ∧
    (∀ acc : List (Nat × ToolCallAcc),
      List.Sorted (fun a b => a ≤ b) (sortedKeys acc) ∧
      List.Perm (sortedKeys acc) (acc.map Prod.fst)) ∧
    (∀ a : ToolCallAcc, a.arguments ≠ "" → pj a.arguments = none →
      emitToolCall pj a = .toolCall a.id a.fname (Json.obj [])) := by
  refine ⟨?_, ?_, ?_⟩
  · intro i callId fn frags hne hid hfn
    cases frags with
    | nil => exact absurd rfl hne
    | cons f rest =>
      have happ0 : applyToolCallDelta [] ⟨i, some callId, some fn, some f⟩ =
          [(i, ⟨callId, fn, f⟩)] := by
        by_cases hf : f = ""
        · subst hf; simp [applyToolCallDelta, lookupAcc, setAcc, hid, hfn]
        · simp [applyToolCallDelta, lookupAcc, setAcc, hid, hfn, hf, String.empty_append]
      have hstep : streamChatCompletion pj (fragStream i callId fn (f :: rest)) =
          processLines pj
            (rest.map (fun s => SSELine.delta ⟨none, [⟨i, none, none, some s⟩], none⟩) ++
              [.delta ⟨none, [], some "tool_calls"⟩]) [(i, ⟨callId, fn, f⟩)] := by
        simp [streamChatCompletion, fragStream, processLines, happ0]
      rw [hstep, processLines_fragTail]
      have hfin : finalizeToolCalls pj [(i, ⟨callId, fn, f ++ concatStrings rest⟩)] =
          [emitToolCall pj ⟨callId, fn, f ++ concatStrings rest⟩] := by
        simp [finalizeToolCalls, sortedKeys, lookupAcc, List.insertionSort, List.orderedInsert]
      rw [hfin]
      simp [emitToolCall, concatStrings]
  · intro acc
    exact ⟨List.sorted_insertionSort _ _, List.perm_insertionSort _ _⟩
  · intro a hne hpj
    simp [emitToolCall, hne, hpj]

/-- Witness for C3: the payload `"{}"` split into the two pieces `"{"` and
`"}"` under a parser that always fails, a two-slot accumulator, and an
unparsable single-piece payload. -/
theorem streaming_parser_reconstruction_witness :
    (streamChatCompletion (fun _ => none) (fragStream 0 "id1" "t" ["\x7b", "\x7d"]) =
      [.toolCall "id1" "t"
        (if concatStrings ["\x7b", "\x7d"] = "" then Json.obj []
         else ((fun _ => (none : Option Json)) (concatStrings ["\x7b", "\x7d"])).getD (Json.obj [])),
       .doneChunk (some "tool_calls")]) ∧
    (List.Sorted (fun a b => a ≤ b) (sortedKeys [(1, ⟨"a", "b", "c"⟩), (0, ⟨"d", "e", "f"⟩)]) ∧
      List.Perm (sortedKeys [(1, ⟨"a", "b", "c"⟩), (0, ⟨"d", "e", "f"⟩)])
        ([(1, (⟨"a", "b", "c"⟩ : ToolCallAcc)), (0, ⟨"d", "e", "f"⟩)].map Prod.fst)) ∧
    (emitToolCall (fun _ => none) ⟨"x", "y", "notjson"⟩ = .toolCall "x" "y" (Json.obj [])) :=
  ⟨(streaming_parser_reconstruction (fun _ => none)).1 0 "id1" "t" ["\x7b", "\x7d"]
      (by simp) (by simp) (by simp),
   (streaming_parser_reconstruction (fun _ => none)).2.1 [(1, ⟨"a", "b", "c"⟩), (0, ⟨"d", "e", "f"⟩)],
   (streaming_parser_reconstruction (fun _ => none)).2.2 ⟨"x", "y", "notjson"⟩
      (by simp) rfl⟩

/-! ## C1 — the tool-calling loop has no round-trip bound -/

/-- `tool_executor_node` never touches the `error` field. -/
theorem tool_executor_node_error (run : String → Json → Except String Json) (now : ℚ)
    (store : CacheStore) (s : ChatAgentState) :
    (tool_executor_node run now store s).1.error = s.error := by
  by_cases h : s.pending_tool_calls.isEmpty <;> simp [tool_executor_node, h]

/-- C1 (refutation): with a language model that requests a tool call on
every round, the chat graph never leaves the `chat ↔ tool_executor` loop:
after any number of rounds it is still running, with no error recorded —
there is no round-trip counter, no `ERROR` transition and no
"loop limit exceeded" fault in the code. -/
theorem chat_loop_never_reaches_loop_limit_error
    (c : PendingToolCall) (run : String → Json → Except String Json) (now : ℚ) :
    ∀ (fuel round : Nat) (s : ChatAgentState) (store : CacheStore), s.error = none →
      ∃ s' store',
        runChatGraph (alwaysToolCallLLM c) run now fuel round s store = .running s' store' ∧
        s'.error = none := by
  intro fuel
  induction fuel with
  | zero => intro round s store herr; exact ⟨s, store, rfl, herr⟩
  | succ n ih =>
    intro round s store herr
    have hchat : chatNode (alwaysToolCallLLM c round) s =
        { s with
            messages := withSystemPrompt s.messages ++ [⟨"assistant", none, some [c], none, none⟩],
            pending_tool_calls := [c], status := "tool_calling", should_continue := true } := by
      simp [chatNode, alwaysToolCallLLM]
    have herr1 : (chatNode (alwaysToolCallLLM c round) s).error = none := by
      rw [hchat]; exact herr
    have hroute : chatShouldContinue (chatNode (alwaysToolCallLLM c round) s) = "execute_tools" := by
      rw [hchat]
      simp [chatShouldContinue, herr]
    have herr2 :
        (tool_executor_node run now store (chatNode (alwaysToolCallLLM c round) s)).1.error = none := by
      rw [tool_executor_node_error]; exact herr1
    obtain ⟨s', store', hrun, herr'⟩ := ih (round + 1)
      (tool_executor_node run now store (chatNode (alwaysToolCallLLM c round) s)).1
      (tool_executor_node run now store (chatNode (alwaysToolCallLLM c round) s)).2 herr2
    refine ⟨s', store', ?_, herr'⟩
    simp only [runChatGraph]
    rw [if_pos hroute]
    exact hrun

/-- Witness for C1's refutation: three rounds from a fresh turn. -/
theorem chat_loop_never_reaches_loop_limit_error_witness :
    ∃ s' store',
      runChatGraph (alwaysToolCallLLM ⟨"id1", "t", Json.null⟩) (fun _ _ => Except.ok Json.null) 0 3 0
        (initialChatState [⟨"user", some "hi", none, none, none⟩]) [] = .running s' store' ∧
      s'.error = none :=
  chat_loop_never_reaches_loop_limit_error ⟨"id1", "t", Json.null⟩ (fun _ _ => Except.ok Json.null)
    0 3 0 (initialChatState [⟨"user", some "hi", none, none, none⟩]) [] rfl

/-! ## C8 — conversation loading -/

/-- C8 counterexample: the persistence path drops tool-call linkage.  Two
`tool` messages differing only in `tool_call_id` persist to identical rows
(the `messages` table has no `tool_call_id`/`name` columns and `add_message`
accepts neither), so loading cannot reproduce the linkage. -/
theorem conversation_store_drops_tool_linkage :
    persistMessage [] "m1" "c1" ⟨"tool", some "x", none, some "call_1", some "t1"⟩ 0 =
      persistMessage [] "m1" "c1" ⟨"tool", some "x", none, some "call_2", some "t1"⟩ 0 ∧
    get_conversation_messages
        (persistMessage [] "m1" "c1" ⟨"tool", some "x", none, some "call_1", some "t1"⟩ 0) "c1" =
      get_conversation_messages
        (persistMessage [] "m1" "c1" ⟨"tool", some "x", none, some "call_2", some "t1"⟩ 0) "c1" ∧
    (ChatMessage.mk "tool" (some "x") none (some "call_1") (some "t1")).tool_call_id ≠
      (ChatMessage.mk "tool" (some "x") none (some "call_2") (some "t1")).tool_call_id :=
  ⟨rfl, rfl, by decide⟩

/-- C8 amended: loading a conversation returns exactly the rows appended
for it — id, role, content and UI snapshot preserved — in append order
whenever the appended timestamps are non-decreasing (the query orders by
`created_at`); appending adds exactly one row at the end of the
conversation's sequence.  Tool-call linkage is not part of the schema. -/
theorem conversation_load_preserves_content_and_order (db : List DbMessage) (cid : String)
    (hsorted : List.Sorted (fun a b => a.created_at ≤ b.created_at)
        (db.filter (fun m => m.conversation_id = cid))) :
    get_conversation_messages db cid = (db.filter (fun m => m.conversation_id = cid)).map loadRow ∧
    (∀ m, m ∈ db.filter (fun m => m.conversation_id = cid) →
      (loadRow m).role = m.role ∧ (loadRow m).content = m.content ∧ (loadRow m).id = m.id ∧
        (loadRow m).a2ui_snapshot = m.a2ui_snapshot) ∧
    (∀ (mid roleStr : String) (content : Option String) (snap : Option (List Json)) (t : ℚ),
      (add_message db mid cid roleStr content snap t).filter (fun m => m.conversation_id = cid) =
        db.filter (fun m => m.conversation_id = cid) ++
          [{ id := mid, conversation_id := cid, role := roleStr,
             content := content.getD "",
             a2ui_snapshot := match snap with
               | some xs => if xs.isEmpty then none else some xs
               | none => none,
             created_at := t }]) := by
  refine ⟨?_, ?_, ?_⟩
  · unfold get_conversation_messages
    rw [List.Sorted.insertionSort_eq hsorted]
  · intro m hm
    exact ⟨rfl, rfl, rfl, rfl⟩
  · intro mid roleStr content snap t
    simp [add_message]

/-- Witness for C8 (amended) on a two-message conversation with increasing
timestamps. -/
theorem conversation_load_preserves_witness :
    get_conversation_messages
        [⟨"m1", "c1", "user", "hi", none, 0⟩, ⟨"m2", "c1", "assistant", "yo", none, 1⟩] "c1" =
      (([⟨"m1", "c1", "user", "hi", none, 0⟩, ⟨"m2", "c1", "assistant", "yo", none, 1⟩] :
          List DbMessage).filter (fun m => m.conversation_id = "c1")).map loadRow ∧
    (∀ m, m ∈ ([⟨"m1", "c1", "user", "hi", none, 0⟩, ⟨"m2", "c1", "assistant", "yo", none, 1⟩] :
          List DbMessage).filter (fun m => m.conversation_id = "c1") →
      (loadRow m).role = m.role ∧ (loadRow m).content = m.content ∧ (loadRow m).id = m.id ∧
        (loadRow m).a2ui_snapshot = m.a2ui_snapshot) ∧
    (∀ (mid roleStr : String) (content : Option String) (snap : Option (List Json)) (t : ℚ),
      (add_message [⟨"m1", "c1", "user", "hi", none, 0⟩, ⟨"m2", "c1", "assistant", "yo", none, 1⟩]
          mid "c1" roleStr content snap t).filter (fun m => m.conversation_id = "c1") =
        ([⟨"m1", "c1", "user", "hi", none, 0⟩, ⟨"m2", "c1", "assistant", "yo", none, 1⟩] :
            List DbMessage).filter (fun m => m.conversation_id = "c1") ++
          [{ id := mid, conversation_id := "c1", role := roleStr,
             content := content.getD "",
             a2ui_snapshot := match snap with
               | some xs => if xs.isEmpty then none else some xs
               | none => none,
             created_at := t }]) :=
  conversation_load_preserves_content_and_order
    [⟨"m1", "c1", "user", "hi", none, 0⟩, ⟨"m2", "c1", "assistant", "yo", none, 1⟩] "c1"
    (by simp [List.sorted_cons])

end Jarz
